import Mathlib

set_option maxRecDepth 8192

/-!
# Verification of the myaura-personal glue code

Shallow embedding, in Lean 4, of the parts of the `myaura-personal`
repository that its design spec makes claims about:

* `GeminiService.withRetry` (src/unnamed/part_002, lines 95-122): retry
  wrapper with auth-error classification and a single rate-limit retry;
* the base64 `encode` / `decode` pair and `createBlob` PCM conversion
  (src/unnamed/part_002, lines 16-47; src/services/geminiService.ts);
* the `AuraDB` persistence facade (`saveSettings`/`getSettings`,
  `saveActiveChat`; src/unnamed/part_004);
* the chat-history sort (`(a,b) => a.timestamp - b.timestamp`);
* the `VoiceInterface` session callbacks (src/components/VoiceInterface.tsx):
  session-id guarding, the `interrupted` playback flush, and the
  microphone RMS gate.

JavaScript strings are embedded as Lean `String`s; `String.includes` is an
exact substring test, embedded below as a boolean infix check on `List Char`.
-/

namespace Aura

/-- Boolean prefix test on character lists (`BEq`-based, like
`List.isPrefixOf`), used to build the substring test. -/
def isPrefixOfB : List Char → List Char → Bool
  | [], _ => true
  | _ :: _, [] => false
  | a :: as, b :: bs => a == b && isPrefixOfB as bs

/-- Boolean substring test: does `needle` occur contiguously in `hay`?
Embeds JavaScript `hay.includes(needle)`. -/
def isInfixOfB (needle : List Char) : List Char → Bool
  | [] => isPrefixOfB needle []
  | b :: bs => isPrefixOfB needle (b :: bs) || isInfixOfB needle bs

/-- `includesStr hay needle` embeds the JavaScript call `hay.includes(needle)`. -/
def includesStr (hay needle : String) : Bool :=
  isInfixOfB needle.toList hay.toList

/-- ASCII lower-casing of a string, embedding `rawMsg.toLowerCase()`
(the substrings matched against are ASCII, so the ASCII mapping suffices). -/
def toLowerStr (s : String) : String :=
  String.mk (s.toList.map Char.toLower)

/-! ## `GeminiService.withRetry` (src/unnamed/part_002, lines 95-122)

```js
private async withRetry<T>(operation, retries = 1, initialDelay = 1500) {
  try { return await operation(); } catch (e) {
    const rawMsg = e?.message || e?.toString() || "";
    const isAuthError =
      rawMsg.includes('403') || rawMsg.includes('PERMISSION_DENIED') ||
      rawMsg.includes('caller does not have permission') ||
      rawMsg.includes('Requested entity was not found') ||
      rawMsg.includes('API_KEY_INVALID') || rawMsg.includes('unauthorized') ||
      rawMsg.toLowerCase().includes('permission');
    if (isAuthError) { this.chat = null; throw new Error("AUTH_ERROR: ..."); }
    if (retries > 0 && (rawMsg.includes('429') || rawMsg.includes('RESOURCE_EXHAUSTED'))) {
      await delay; return this.withRetry(operation, retries - 1, initialDelay * 2);
    }
    throw e;
  }
}
```

Each invocation of `operation` either resolves with a value or rejects with
an error message; since successive invocations may behave differently, the
operation is embedded as a function from the invocation index to an
`Except String α`.  The backoff delays do not affect control flow and are
not modelled. -/

/-- The auth-error classification of `withRetry` (lines 102-109). -/
def isAuthError (rawMsg : String) : Bool :=
  includesStr rawMsg "403" ||
  includesStr rawMsg "PERMISSION_DENIED" ||
  includesStr rawMsg "caller does not have permission" ||
  includesStr rawMsg "Requested entity was not found" ||
  includesStr rawMsg "API_KEY_INVALID" ||
  includesStr rawMsg "unauthorized" ||
  includesStr (toLowerStr rawMsg) "permission"

/-- The rate-limit test of `withRetry` (line 116). -/
def isRateLimit (rawMsg : String) : Bool :=
  includesStr rawMsg "429" || includesStr rawMsg "RESOURCE_EXHAUSTED"

/-- The message of the error thrown on the auth path (line 113). -/
def authErrorMessage : String :=
  "AUTH_ERROR: Permission Denied. Visit ai.google.dev/gemini-api/docs/billing."

/-- `withRetryAux op attempt retries` runs `withRetry` starting at invocation
index `attempt` with `retries` retries left; it returns the outcome
(`Except.ok` for a resolved value, `Except.error` for the thrown error's
message) paired with the number of times `operation` was invoked.
`retries > 0 && rateLimit` from line 116 is split into a match on `retries`. -/
def withRetryAux (op : Nat → Except String α) (attempt retries : Nat) :
    Except String α × Nat :=
  match op attempt with
  | .ok a => (.ok a, 1)
  | .error msg =>
    if isAuthError msg then (.error authErrorMessage, 1)
    else
      match retries with
      | 0 => (.error msg, 1)
      | r + 1 =>
        if isRateLimit msg then
          let inner := withRetryAux op (attempt + 1) r
          (inner.1, inner.2 + 1)
        else (.error msg, 1)
termination_by retries

/-- `withRetry` with its default arguments (`retries = 1`). -/
def withRetry (op : Nat → Except String α) : Except String α × Nat :=
  withRetryAux op 0 1

/-! ## Data model (src/types.ts) -/

/-- `MessageRole` from src/types.ts. -/
inductive MessageRole where
  | user
  | model
  | system
deriving DecidableEq, Repr

/-- A web grounding chunk (`{ uri, title }`) from src/types.ts. -/
structure WebChunk where
  uri : String
  title : String
deriving DecidableEq, Repr

/-- A map grounding chunk (`{ uri, title, source }`) from src/types.ts. -/
structure MapChunk where
  uri : String
  title : String
  source : String
deriving DecidableEq, Repr

/-- `GroundingMetadata` from src/types.ts. -/
structure GroundingMetadata where
  searchChunks : Option (List WebChunk)
  mapChunks : Option (List MapChunk)
deriving DecidableEq, Repr

/-- `ChatMessage` from src/types.ts.  JavaScript number timestamps
(`Date.now()` values) are embedded as integers. -/
structure ChatMessage where
  id : String
  userId : String
  role : MessageRole
  text : String
  image : Option String
  timestamp : Int
  groundingMetadata : Option GroundingMetadata
deriving DecidableEq, Repr

/-- `Settings` from src/types.ts. -/
structure Settings where
  userId : String
  name : String
  language : String
  personality : String
  voiceName : String
  useLocalMode : Bool
  userBio : String
deriving DecidableEq, Repr

/-! ## The `AuraDB` persistence facade (src/unnamed/part_004)

Each IndexedDB object store is embedded as an association list of records,
ordered by insertion; `store.put(value)` replaces the record that shares
`value`'s key (if any) and adds the record otherwise, so it is embedded as
"drop the record with the same key, then append".  The `settings` store has
`keyPath: 'userId'`; the `active_chat` store has `keyPath: 'id'` with a
non-unique index on `userId`. -/

namespace AuraDB

/-- IndexedDB `put` on the `settings` store (`keyPath: 'userId'`). -/
def putSettings (store : List Settings) (s : Settings) : List Settings :=
  store.filter (fun r => r.userId != s.userId) ++ [s]

/-- `AuraDB.saveSettings` (part_004, lines 136-138): `this.put('settings', settings)`. -/
def saveSettings (store : List Settings) (s : Settings) : List Settings :=
  putSettings store s

/-- `AuraDB.getSettings` (part_004, lines 127-134): `store.get(userId)`. -/
def getSettings (store : List Settings) (userId : String) : Option Settings :=
  store.find? (fun r => r.userId == userId)

/-- IndexedDB `put` on the `active_chat` store (`keyPath: 'id'`). -/
def putChatRecord (store : List ChatMessage) (m : ChatMessage) : List ChatMessage :=
  store.filter (fun r => r.id != m.id) ++ [m]

/-- `AuraDB.saveActiveChat` (part_004, lines 140-160): fetch all keys of the
caller's records through the `userId` index and delete them, then `put`
each message with its `userId` field overwritten by the argument. -/
def saveActiveChat (store : List ChatMessage) (userId : String)
    (messages : List ChatMessage) : List ChatMessage :=
  let cleared := store.filter (fun r => r.userId != userId)
  messages.foldl (fun st msg => putChatRecord st { msg with userId := userId }) cleared

end AuraDB

/-! ## The chat-history sort (src/unnamed/part_000 line 26,
src/services/geminiService.ts line 510)

`saved.sort((a,b) => a.timestamp - b.timestamp)`: ECMAScript `Array.sort`
with a consistent comparator returns a stable permutation of the array that
is sorted according to the comparator; it is embedded as a stable merge
sort with the boolean order `a.timestamp ≤ b.timestamp`. -/

/-- The sort applied when loading the active chat. -/
def sortByTimestamp (l : List ChatMessage) : List ChatMessage :=
  l.mergeSort (fun a b => a.timestamp ≤ b.timestamp)

/-! ## `saveActiveChat` store contents (C9)

`saveActiveChat` deletes only the keys found through the `userId` index, but
the subsequent `put`s key on `id` alone: a message whose `id` equals the key
of another user's record overwrites that record, and two messages sharing an
`id` collapse into one record.  The exact postcondition therefore needs the
incoming ids to be distinct and disjoint from other users' keys. -/

/-- A record of user `alice` sitting in the `active_chat` store. -/
def c9StoreRecord : ChatMessage :=
  { id := "m1", userId := "alice", role := .user, text := "hello", image := none,
    timestamp := 5, groundingMetadata := none }

/-- A message of user `bob` that shares its `id` with `alice`'s record. -/
def c9Message : ChatMessage :=
  { id := "m1", userId := "bob", role := .user, text := "yo", image := none,
    timestamp := 7, groundingMetadata := none }

/-! ## base64 `encode` / `decode` (src/unnamed/part_002, lines 28-47;
src/services/geminiService.ts, lines 31-50)

`encode` builds a binary string from the byte array in 32 KB
(`0x8000`-byte) chunks with `String.fromCharCode` and passes it to the
platform's `btoa`; `decode` applies `atob` and reads the char code at every
position.  Bytes are embedded as natural numbers (`Uint8Array` entries are
below 256); `btoa`/`atob` are the standard base64 codec with `=` padding. -/

/-- The base64 alphabet. -/
def base64Chars : List Char :=
  "ABCDEFGHIJKLMNOPQRSTUVWXYZabcdefghijklmnopqrstuvwxyz0123456789+/".toList

/-- The alphabet character of a sextet. -/
def sextetChar (n : Nat) : Char := base64Chars.getD n '?'

/-- The sextet value of an alphabet character. -/
def sextetVal (c : Char) : Nat := base64Chars.indexOf c

/-- `btoa` on the byte values of its input string: 3 bytes become 4
sextet characters; a final 1- or 2-byte group is padded with `=`. -/
def btoaBytes : List Nat → List Char
  | [] => []
  | [b0] => [sextetChar (b0 / 4), sextetChar (b0 % 4 * 16), '=', '=']
  | [b0, b1] => [sextetChar (b0 / 4), sextetChar (b0 % 4 * 16 + b1 / 16),
                 sextetChar (b1 % 16 * 4), '=']
  | b0 :: b1 :: b2 :: rest =>
      sextetChar (b0 / 4) :: sextetChar (b0 % 4 * 16 + b1 / 16) ::
      sextetChar (b1 % 16 * 4 + b2 / 64) :: sextetChar (b2 % 64) :: btoaBytes rest

/-- `String.fromCharCode.apply(null, chunk)`: the string whose char codes
are the chunk's byte values. -/
def fromCharCodes (bytes : List Nat) : List Char := bytes.map Char.ofNat

/-- The chunked loop of `encode` (lines 31-35): append the
`String.fromCharCode` image of each successive 32 KB chunk. -/
def toBinaryChunked (bytes : List Nat) : List Char :=
  if h : bytes = [] then []
  else fromCharCodes (bytes.take 32768) ++ toBinaryChunked (bytes.drop 32768)
termination_by bytes.length
decreasing_by
  have hpos : 0 < bytes.length := List.length_pos.mpr h
  simp only [List.length_drop]
  omega

/-- `encode` (lines 28-37): chunked binary-string construction, then `btoa`
on that string's char codes. -/
def encode (bytes : List Nat) : List Char :=
  btoaBytes ((toBinaryChunked bytes).map Char.toNat)

/-- `atob` at the byte level: each 4-character group yields 3 bytes, or 1
or 2 bytes when the group carries `=` padding. -/
def atobBytes : List Char → List Nat
  | c0 :: c1 :: c2 :: c3 :: rest =>
    if c2 = '=' then [sextetVal c0 * 4 + sextetVal c1 / 16]
    else if c3 = '=' then
      [sextetVal c0 * 4 + sextetVal c1 / 16,
       sextetVal c1 % 16 * 16 + sextetVal c2 / 4]
    else
      (sextetVal c0 * 4 + sextetVal c1 / 16) ::
      (sextetVal c1 % 16 * 16 + sextetVal c2 / 4) ::
      (sextetVal c2 % 4 * 64 + sextetVal c3) :: atobBytes rest
  | _ => []

/-- The string returned by `atob`: chars whose codes are the decoded bytes. -/
def atobString (b64 : List Char) : List Char :=
  (atobBytes b64).map Char.ofNat

/-- `decode` (lines 39-47): `atob`, then `charCodeAt` at every position. -/
def decode (b64 : List Char) : List Nat :=
  (atobString b64).map Char.toNat

/-! ## `createBlob` (src/unnamed/part_002, lines 16-26;
src/services/geminiService.ts, lines 18-28)

`int16[i] = data[i] * 32768` stores a JavaScript number into an
`Int16Array`; ECMAScript converts the number with `ToInt16`: truncate
toward zero, reduce modulo 2^16, reinterpret in the signed 16-bit range.
Samples are embedded as rationals. -/

/-- Truncation toward zero of a rational (ECMAScript `ToIntegerOrInfinity`
on a finite number). -/
def truncRat (x : ℚ) : Int :=
  if 0 ≤ x then ⌊x⌋ else ⌈x⌉

/-- ECMAScript `ToInt16`: truncate, reduce modulo 2^16, reinterpret signed. -/
def toInt16 (x : ℚ) : Int :=
  if truncRat x % 65536 < 32768 then truncRat x % 65536
  else truncRat x % 65536 - 65536

/-- The per-sample conversion of `createBlob`: `int16[i] = data[i] * 32768`. -/
def createBlobSample (x : ℚ) : Int := toInt16 (x * 32768)

/-- `createBlob` applied to a whole microphone buffer. -/
def createBlobData (samples : List ℚ) : List Int :=
  samples.map createBlobSample

/-! ## `VoiceInterface` session callbacks (src/components/VoiceInterface.tsx)

The UI state that the voice-call callbacks touch is embedded as one record:
the React state set by `setLogs` / `setStatus` / `setAiState` /
`setIsAuraSpeaking`, the playback queue `sourcesRef` (ids of the scheduled
`AudioBufferSourceNode`s, with `stopped` recording every id on which
`stop()` has been called), the timeline cursor `nextStartTimeRef`, the
`connectionRef` flag and `lastUserAudioTimeRef`.  New sources take
consecutive ids from `nextSourceId`.  Times on the audio timeline are
rationals (seconds); wall-clock values are passed in by the caller.  The
visual mic level (`setMicLevel`, updated on a random coin after the
session-id guard) and the canvas visualizer are not part of the record. -/

/-- `status` state of `VoiceInterface` (line 15). -/
inductive CallStatus where
  | idle
  | connecting
  | connected
  | error
deriving DecidableEq, Repr

/-- `aiState` state of `VoiceInterface` (line 23). -/
inductive AiState where
  | listening
  | thinking
  | speaking
deriving DecidableEq, Repr

/-- The mutable UI state of `VoiceInterface` touched by the session
callbacks. -/
structure UIState where
  logs : List String
  status : CallStatus
  aiState : AiState
  isAuraSpeaking : Bool
  sources : List Nat
  stopped : List Nat
  nextStartTime : ℚ
  connection : Bool
  lastUserAudioTime : Int
  nextSourceId : Nat
deriving DecidableEq, Repr

/-- `addLog` (lines 50-53): prepend the stamped entry and keep the first 8.
The wall-clock stamp is passed in as `time`. -/
def addLogState (time msg : String) (s : UIState) : UIState :=
  { s with logs := (("[" ++ time ++ "] " ++ msg) :: s.logs).take 8 }

/-- The payload handed to the `onMessage` callback by
`connectLiveSession` (part_002, lines 307-313): the optional base64 audio
chunk and the `interrupted` / `turnComplete` flags. -/
structure LiveMsg where
  audio : Option String
  interrupted : Bool
  turnComplete : Bool

/-- Duration in seconds of a decoded audio chunk
(`decodeAudioData(decode(audio), outputCtx, 24000, 1)`): the decoded bytes
reinterpreted as 16-bit frames at 24 kHz. -/
def audioChunkDuration (b64 : String) : ℚ :=
  (((decode b64.toList).length / 2 : ℕ) : ℚ) / 24000

/-- The live-session `onMessage` callback of `handleStartCall`
(VoiceInterface.tsx, lines 115-159).  `sessionId` is the id captured by the
closure, `activeId` the current value of `activeSessionIdRef`, `currentTime`
the output context's `currentTime`, and `ctxClosed` whether the output
context is closed. -/
def onMessageCallback (sessionId activeId : String) (time : String)
    (currentTime : ℚ) (ctxClosed : Bool) (msg : LiveMsg) (s : UIState) : UIState :=
  if activeId != sessionId then s
  else if msg.interrupted then
    let s1 := addLogState time "!! INTERRUPTED !!" s
    { s1 with stopped := s1.stopped ++ s1.sources, sources := [],
              nextStartTime := currentTime, aiState := .listening }
  else if msg.turnComplete then
    if s.sources.isEmpty then { s with aiState := .listening } else s
  else
    match msg.audio with
    | none => s
    | some b64 =>
      if b64.isEmpty || ctxClosed then s
      else
        let s1 := { s with aiState := .speaking }
        let t0 := if s1.nextStartTime < currentTime then currentTime
                  else s1.nextStartTime
        { s1 with sources := s1.sources ++ [s1.nextSourceId],
                  nextSourceId := s1.nextSourceId + 1,
                  nextStartTime := t0 + audioChunkDuration b64,
                  isAuraSpeaking := true }

/-- The live-session `onClose` callback of `handleStartCall`
(VoiceInterface.tsx, lines 161-169): it logs `Disconnected.` before the
session-id guard, then updates `status` and `connectionRef` only for the
active session. -/
def onCloseCallback (sessionId activeId : String) (time : String)
    (isSwitchingMode : Bool) (s : UIState) : UIState :=
  let s1 := addLogState time "Disconnected." s
  if activeId == sessionId then
    let s2 := if !isSwitchingMode then { s1 with status := .error } else s1
    { s2 with connection := false }
  else s1

/-- The `catch` handler of `handleStartCall` (VoiceInterface.tsx, lines
250-258): it logs the error before the session-id guard, then resets
`connectionRef` and `status` only for the active session (the `onAuthError`
prop called on a `403` message is an external callback, not UI state). -/
def onStartCallError (sessionId activeId : String) (time : String)
    (errMsg : String) (s : UIState) : UIState :=
  let s1 := addLogState time ("Error: " ++ errMsg) s
  if activeId == sessionId then
    { s1 with connection := false, status := .error }
  else s1

/-- Sum of squares of the samples (`sum += inputData[i] * inputData[i]`). -/
def sumSq (l : List ℚ) : ℚ := (l.map (fun x => x * x)).sum

/-- The comparison `Math.sqrt(sum / len) > thr` for a non-negative
threshold, stated without the square root: for `len > 0` it is equivalent
to `thr² · len < sum`, and for `len = 0` both are false (in JavaScript
`Math.sqrt(0/0)` is `NaN` and `NaN > thr` is false). -/
def rmsAbove (samples : List ℚ) (thr : ℚ) : Bool :=
  decide (thr ^ 2 * samples.length < sumSq samples)

/-- The `processor.onaudioprocess` handler of `handleStartCall`
(VoiceInterface.tsx, lines 206-243).  Returns the state afterwards and the
buffer passed to `actions.sendAudio` (`none` when nothing is sent).
`micCoin` is the `Math.random() < 0.1` draw for the visual mic level, which
is not part of the modelled state. -/
def processorStep (sessionId activeId : String) (isMuted pauseAudioSending : Bool)
    (micCoin : Bool) (nowMs : Int) (inputData : List ℚ) (s : UIState) :
    UIState × Option (List ℚ) :=
  if activeId != sessionId then (s, none)
  else if isMuted || pauseAudioSending then (s, none)
  else
    let isAiTalking := !s.sources.isEmpty
    if isAiTalking then
      if rmsAbove inputData (1 / 20) then (s, some inputData)
      else (s, some (List.replicate inputData.length 0))
    else
      let s1 := if rmsAbove inputData (1 / 100) then
                  { s with lastUserAudioTime := nowMs }
                else s
      (s1, some inputData)

/-- A voice-call UI state as it stands right after connecting: empty log,
empty playback queue, timeline cursor at zero. -/
def voiceState0 : UIState :=
  { logs := [], status := .connected, aiState := .listening,
    isAuraSpeaking := false, sources := [], stopped := [],
    nextStartTime := 0, connection := true, lastUserAudioTime := 0,
    nextSourceId := 2 }

/-- A voice-call UI state in which two audio chunks are queued for playback
(the remote voice is talking). -/
def voiceStateTalking : UIState :=
  { voiceState0 with
    sources := [0, 1],
    aiState := .speaking,
    isAuraSpeaking := true,
    nextStartTime := 3 }

/-- With no retries left, `withRetry` invokes the operation exactly once. -/
theorem withRetryAux_zero_count (op : Nat → Except String α) (attempt : Nat) :
    (withRetryAux op attempt 0).2 = 1 := by
  unfold withRetryAux
  cases op attempt
  · split
    · rfl
    · split <;> rfl
  · rfl

/-- C1: with its default arguments `withRetry` invokes the underlying
operation at least once and at most twice, and it invokes it twice exactly
when the first invocation rejects with a message that is classified as a
rate-limit error (contains `429` or `RESOURCE_EXHAUSTED`) and not as an
authorization error; in every other case (success, authorization failure,
or any other error) the operation runs exactly once, so the single retry is
performed only for rate-limit errors. -/
theorem withRetry_invocation_count (op : Nat → Except String α) :
    1 ≤ (withRetry op).2 ∧ (withRetry op).2 ≤ 2 ∧
    ((withRetry op).2 = 2 ↔
      ∃ m, op 0 = Except.error m ∧ isAuthError m = false ∧ isRateLimit m = true) := by
  unfold withRetry withRetryAux
  cases h : op 0 with
  | ok a => simp [h]
  | error m =>
    by_cases ha : isAuthError m
    · simp [h, ha]
    · by_cases hr : isRateLimit m
      · simp [h, ha, hr, withRetryAux_zero_count]
      · simp [h, ha, hr]

/-- C2: if any error thrown by an operation run under `withRetry` (with its
default `retries = 1` the operation is invoked at most twice, so the error
comes from invocation 0 or from the retried invocation 1) has a message
containing one of the authorization-failure substrings (`403`,
`PERMISSION_DENIED`, `caller does not have permission`,
`Requested entity was not found`, `API_KEY_INVALID`, `unauthorized`, or
`permission` case-insensitively), then `withRetry` throws the error whose
message starts with `AUTH_ERROR` and never takes the retry or generic
rethrow path for it, even if the same message also contains a rate-limit
substring such as `429`: an auth error on the first invocation ends the run
immediately (one invocation, auth result), and an auth error on the retried
invocation — reached when the first invocation failed with a non-auth
rate-limit message — also ends in the auth result, with no further
invocation.  ("Starts with" is stated with the character-list prefix test
`isPrefixOfB`.) -/
theorem withRetry_auth_path (op : Nat → Except String α) (m : String)
    (hauth : includesStr m "403" = true ∨
             includesStr m "PERMISSION_DENIED" = true ∨
             includesStr m "caller does not have permission" = true ∨
             includesStr m "Requested entity was not found" = true ∨
             includesStr m "API_KEY_INVALID" = true ∨
             includesStr m "unauthorized" = true ∨
             includesStr (toLowerStr m) "permission" = true) :
    (op 0 = Except.error m →
       withRetry op = (Except.error authErrorMessage, 1)) ∧
    (∀ m₀, op 0 = Except.error m₀ → isAuthError m₀ = false →
       isRateLimit m₀ = true → op 1 = Except.error m →
       withRetry op = (Except.error authErrorMessage, 2)) ∧
    isPrefixOfB "AUTH_ERROR".toList authErrorMessage.toList = true := by
  have ha : isAuthError m = true := by
    unfold isAuthError
    rcases hauth with h1 | h1 | h1 | h1 | h1 | h1 | h1 <;> simp [h1]
  refine ⟨?_, ?_, by decide⟩
  · intro h
    unfold withRetry withRetryAux
    simp [h, ha]
  · intro m₀ h0 hna hr h1
    have hinner : withRetryAux op 1 0 = (Except.error authErrorMessage, 1) := by
      unfold withRetryAux
      simp [h1, ha]
    unfold withRetry withRetryAux
    simp [h0, hna, hr, hinner]

/-- Witness for C2: an auth-substring message that also contains `429` is
routed to `AUTH_ERROR` both when it is thrown on the first invocation and
when it is thrown on the retried invocation after a non-auth rate-limit
failure. -/
theorem withRetry_auth_path_witness :
    withRetry (fun _ => (Except.error "429 PERMISSION_DENIED" : Except String Nat)) =
      (Except.error authErrorMessage, 1) ∧
    withRetry (fun n =>
        if n = 0 then (Except.error "429 RESOURCE_EXHAUSTED" : Except String Nat)
        else Except.error "429 PERMISSION_DENIED") =
      (Except.error authErrorMessage, 2) :=
  ⟨(withRetry_auth_path
      (fun _ => (Except.error "429 PERMISSION_DENIED" : Except String Nat))
      "429 PERMISSION_DENIED" (Or.inr (Or.inl (by decide)))).1 rfl,
   (withRetry_auth_path
      (fun n =>
        if n = 0 then (Except.error "429 RESOURCE_EXHAUSTED" : Except String Nat)
        else Except.error "429 PERMISSION_DENIED")
      "429 PERMISSION_DENIED" (Or.inr (Or.inl (by decide)))).2.1
     "429 RESOURCE_EXHAUSTED" rfl (by decide) (by decide) rfl⟩

/-- C4: a settings record round-trips through persistence unchanged:
storing `s` with `saveSettings` and reading it back with
`getSettings s.userId` returns `s`, for any prior contents of the
`settings` store. -/
theorem settings_roundtrip (store : List Settings) (s : Settings) :
    AuraDB.getSettings (AuraDB.saveSettings store s) s.userId = some s := by
  unfold AuraDB.getSettings AuraDB.saveSettings AuraDB.putSettings
  rw [List.find?_append]
  have h1 : (store.filter (fun r => r.userId != s.userId)).find?
      (fun r => r.userId == s.userId) = none := by
    rw [List.find?_eq_none]
    intro x hx
    have hmem := List.of_mem_filter hx
    simp_all
  rw [h1]
  simp

/-- C5: the sort used when loading the chat (`(a,b) => a.timestamp -
b.timestamp`) returns a list that is in non-decreasing timestamp order and
is a permutation of the retrieved list. -/
theorem sortByTimestamp_sorted_perm (l : List ChatMessage) :
    List.Sorted (fun a b => a.timestamp ≤ b.timestamp) (sortByTimestamp l) ∧
    (sortByTimestamp l).Perm l := by
  constructor
  · have htrans : ∀ a b c : ChatMessage,
        (decide (a.timestamp ≤ b.timestamp)) = true →
        (decide (b.timestamp ≤ c.timestamp)) = true →
        (decide (a.timestamp ≤ c.timestamp)) = true := by
      intro a b c hab hbc
      simp only [decide_eq_true_eq] at *
      omega
    have htotal : ∀ a b : ChatMessage,
        ((decide (a.timestamp ≤ b.timestamp)) ||
         (decide (b.timestamp ≤ a.timestamp))) = true := by
      intro a b
      simp only [Bool.or_eq_true, decide_eq_true_eq]
      omega
    have h := @List.sorted_mergeSort ChatMessage
      (fun a b => decide (a.timestamp ≤ b.timestamp)) htrans htotal l
    exact h.imp (fun hab => by simpa using hab)
  · exact List.mergeSort_perm l _

/-- C9 counterexample: saving `bob`'s active chat with a message whose `id`
equals the key of `alice`'s record overwrites that record, so it is not the
case that records belonging to a different user are unchanged by the call
while the caller's records become exactly the saved messages. -/
theorem saveActiveChat_counterexample :
    ¬ (((AuraDB.saveActiveChat [c9StoreRecord] "bob" [c9Message]).filter
          (fun r => r.userId == "bob") =
        [c9Message].map (fun m => { m with userId := "bob" })) ∧
       ((AuraDB.saveActiveChat [c9StoreRecord] "bob" [c9Message]).filter
          (fun r => r.userId != "bob") =
        [c9StoreRecord].filter (fun r => r.userId != "bob"))) := by decide

/-- Folding `put` over messages whose ids are distinct and collide with no
record of `st` appends the messages (with `userId` overwritten) to `st`. -/
theorem foldl_put_append (u : String) (msgs : List ChatMessage) (st : List ChatMessage)
    (hnodup : (msgs.map (fun m => m.id)).Nodup)
    (hdisj : ∀ r ∈ st, ∀ m ∈ msgs, m.id ≠ r.id) :
    msgs.foldl (fun acc msg => AuraDB.putChatRecord acc { msg with userId := u }) st =
      st ++ msgs.map (fun m => { m with userId := u }) := by
  induction msgs generalizing st with
  | nil => simp
  | cons m ms ih =>
    simp only [List.foldl_cons, List.map_cons]
    have hput : AuraDB.putChatRecord st { m with userId := u } =
        st ++ [{ m with userId := u }] := by
      unfold AuraDB.putChatRecord
      congr 1
      apply List.filter_eq_self.mpr
      intro r hr
      have hne : m.id ≠ r.id := hdisj r hr m (by simp)
      simpa using fun h => hne h.symm
    rw [hput]
    have hnodup' : (ms.map (fun m => m.id)).Nodup := by
      simpa using hnodup.of_cons
    have hnotmem : m.id ∉ ms.map (fun m => m.id) := by
      have h := (List.nodup_cons.mp (by exact hnodup : (m.id :: ms.map (fun m => m.id)).Nodup)).1
      simpa using h
    have hdisj' : ∀ r ∈ st ++ [{ m with userId := u }], ∀ m' ∈ ms, m'.id ≠ r.id := by
      intro r hr m' hm'
      rcases List.mem_append.mp hr with hr | hr
      · exact hdisj r hr m' (List.mem_cons_of_mem _ hm')
      · have hre : r = { m with userId := u } := by simpa using hr
        subst hre
        intro heq
        apply hnotmem
        apply List.mem_map.mpr
        exact ⟨m', hm', by simpa using heq⟩
    rw [ih _ hnodup' hdisj']
    simp

/-- C9 (amended): if the saved messages have pairwise distinct ids and no
message id equals the key of a record of a different user, then after
`saveActiveChat userId messages` the store holds for that user exactly the
records of `messages` (each with its `userId` field set to the given user),
and every record belonging to a different user is unchanged. -/
theorem saveActiveChat_spec (store : List ChatMessage) (u : String)
    (msgs : List ChatMessage)
    (hnodup : (msgs.map (fun m => m.id)).Nodup)
    (hdisj : ∀ r ∈ store, r.userId ≠ u → ∀ m ∈ msgs, m.id ≠ r.id) :
    ((AuraDB.saveActiveChat store u msgs).filter (fun r => r.userId == u) =
       msgs.map (fun m => { m with userId := u })) ∧
    ((AuraDB.saveActiveChat store u msgs).filter (fun r => r.userId != u) =
       store.filter (fun r => r.userId != u)) := by
  unfold AuraDB.saveActiveChat
  have hclear : ∀ r ∈ store.filter (fun r => r.userId != u), ∀ m ∈ msgs, m.id ≠ r.id := by
    intro r hr m hm
    have hpair := List.mem_filter.mp hr
    exact hdisj r hpair.1 (by simpa using hpair.2) m hm
  rw [foldl_put_append u msgs _ hnodup hclear]
  constructor
  · rw [List.filter_append]
    have h1 : (store.filter (fun r => r.userId != u)).filter (fun r => r.userId == u) = [] := by
      rw [List.filter_eq_nil_iff]
      intro r hr
      have hpair := List.mem_filter.mp hr
      simp_all
    have h2 : (msgs.map (fun m => { m with userId := u })).filter (fun r => r.userId == u) =
        msgs.map (fun m => { m with userId := u }) := by
      apply List.filter_eq_self.mpr
      intro r hr
      rcases List.mem_map.mp hr with ⟨m, _, hm⟩
      subst hm
      simp
    rw [h1, h2, List.nil_append]
  · rw [List.filter_append]
    have h3 : (msgs.map (fun m => { m with userId := u })).filter (fun r => r.userId != u) = [] := by
      rw [List.filter_eq_nil_iff]
      intro r hr
      rcases List.mem_map.mp hr with ⟨m, _, hm⟩
      subst hm
      simp
    have h4 : (store.filter (fun r => r.userId != u)).filter (fun r => r.userId != u) =
        store.filter (fun r => r.userId != u) := by
      apply List.filter_eq_self.mpr
      intro r hr
      exact (List.mem_filter.mp hr).2
    rw [h3, h4, List.append_nil]

/-- Witness for C9 (amended) on a two-user store: saving two fresh messages
for `bob` leaves `alice`'s record intact and stores exactly the two
messages. -/
theorem saveActiveChat_spec_witness :
    ((AuraDB.saveActiveChat [c9StoreRecord] "bob"
        [{ c9Message with id := "b1" }, { c9Message with id := "b2" }]).filter
        (fun r => r.userId == "bob") =
       [{ c9Message with id := "b1" }, { c9Message with id := "b2" }].map
         (fun m => { m with userId := "bob" })) ∧
    ((AuraDB.saveActiveChat [c9StoreRecord] "bob"
        [{ c9Message with id := "b1" }, { c9Message with id := "b2" }]).filter
        (fun r => r.userId != "bob") =
       [c9StoreRecord].filter (fun r => r.userId != "bob")) :=
  saveActiveChat_spec [c9StoreRecord] "bob"
    [{ c9Message with id := "b1" }, { c9Message with id := "b2" }]
    (by decide) (by decide)

/-- C10: `createBlob` stores `x * 32768` into the `Int16Array` without
clamping: the stored value lies in the signed 16-bit range and is congruent
modulo 2^16 to the product truncated toward zero; in particular an input
sample of exactly `1.0` is stored as `-32768` (wrap-around), not as the
maximum positive value `32767`. -/
theorem createBlob_wraps_no_clamp :
    (∀ x : ℚ, -32768 ≤ createBlobSample x ∧ createBlobSample x ≤ 32767 ∧
       (createBlobSample x - truncRat (x * 32768)) % 65536 = 0) ∧
    createBlobSample 1 = -32768 := by
  constructor
  · intro x
    unfold createBlobSample toInt16
    set t := truncRat (x * 32768) with ht
    split_ifs <;> omega
  · have h1 : truncRat ((1 : ℚ) * 32768) = 32768 := by
      norm_num [truncRat]
    simp only [createBlobSample, toInt16, h1]
    norm_num

/-- C3 counterexample: a callback of a superseded session still mutates UI
state: with the active session id `2000` differing from the closure's id
`1000`, the `onClose` callback appends a `Disconnected.` entry to the debug
log, so the state is not left unchanged. -/
theorem superseded_onClose_mutates_state :
    onCloseCallback "1000" "2000" "12:00:00" false voiceState0 ≠ voiceState0 := by
  decide

/-- C3 (amended): for a superseded session (the active session id differs
from the one captured by the callbacks) the `onMessage` callback and the
audio-process handler leave the UI state unchanged and send nothing, while
the `onClose` callback and the start-call error handler append a debug-log
entry before their session-id guard but change nothing else: status, AI
state, speaking flag, playback queue, stopped sources, timeline cursor,
connection flag, last-user-audio time and source counter are all
unchanged. -/
theorem superseded_callbacks_guarded (sessionId activeId : String)
    (h : activeId ≠ sessionId) :
    (∀ time currentTime ctxClosed msg s,
       onMessageCallback sessionId activeId time currentTime ctxClosed msg s = s) ∧
    (∀ muted paused coin now input s,
       processorStep sessionId activeId muted paused coin now input s = (s, none)) ∧
    (∀ time sw s, ∃ entry,
       onCloseCallback sessionId activeId time sw s =
         { s with logs := (entry :: s.logs).take 8 }) ∧
    (∀ time err s, ∃ entry,
       onStartCallError sessionId activeId time err s =
         { s with logs := (entry :: s.logs).take 8 }) := by
  have hb : (activeId != sessionId) = true := by simpa using h
  have hbeq : (activeId == sessionId) = false := by simpa using h
  refine ⟨?_, ?_, ?_, ?_⟩
  · intro time currentTime ctxClosed msg s
    simp [onMessageCallback, hb]
  · intro muted paused coin now input s
    simp [processorStep, hb]
  · intro time sw s
    exact ⟨"[" ++ time ++ "] " ++ "Disconnected.",
      by simp [onCloseCallback, addLogState, hbeq]⟩
  · intro time err s
    exact ⟨"[" ++ time ++ "] " ++ ("Error: " ++ err),
      by simp [onStartCallError, addLogState, hbeq]⟩

/-- Witness for C3 (amended) at concrete session ids and states. -/
theorem superseded_callbacks_guarded_witness :
    onMessageCallback "1000" "2000" "12:00:00" 0 false ⟨none, false, false⟩
      voiceStateTalking = voiceStateTalking ∧
    processorStep "1000" "2000" false false false 0 [] voiceStateTalking =
      (voiceStateTalking, none) :=
  ⟨(superseded_callbacks_guarded "1000" "2000" (by decide)).1
      "12:00:00" 0 false ⟨none, false, false⟩ voiceStateTalking,
   (superseded_callbacks_guarded "1000" "2000" (by decide)).2.1
      false false false 0 [] voiceStateTalking⟩

/-- C6: when the live session delivers an `interrupted` signal for the
currently active session, `stop()` is called on every queued audio source,
the pending playback queue `sourcesRef` becomes empty, and the timeline
cursor `nextStartTimeRef` is reset to the output context's current time
(the AI state also returns to `listening`). -/
theorem interrupted_flushes_queue (sessionId time : String) (currentTime : ℚ)
    (ctxClosed : Bool) (msg : LiveMsg) (s : UIState)
    (hint : msg.interrupted = true) :
    (onMessageCallback sessionId sessionId time currentTime ctxClosed msg s).sources = [] ∧
    (onMessageCallback sessionId sessionId time currentTime ctxClosed msg s).nextStartTime
      = currentTime ∧
    (onMessageCallback sessionId sessionId time currentTime ctxClosed msg s).stopped
      = s.stopped ++ s.sources ∧
    (∀ i ∈ s.sources,
       i ∈ (onMessageCallback sessionId sessionId time currentTime ctxClosed msg s).stopped) ∧
    (onMessageCallback sessionId sessionId time currentTime ctxClosed msg s).aiState
      = AiState.listening := by
  refine ⟨?_, ?_, ?_, ?_, ?_⟩ <;>
    simp [onMessageCallback, addLogState, hint]
  exact fun i hi => Or.inr hi

/-- Witness for C6: an `interrupted` message on the active session empties
the two-element queue of `voiceStateTalking`, marks both sources stopped,
and resets the cursor to the current time `7`. -/
theorem interrupted_flushes_queue_witness :
    (onMessageCallback "1000" "1000" "12:00:00" 7 false ⟨none, true, false⟩
        voiceStateTalking).sources = [] ∧
    (onMessageCallback "1000" "1000" "12:00:00" 7 false ⟨none, true, false⟩
        voiceStateTalking).nextStartTime = 7 ∧
    (onMessageCallback "1000" "1000" "12:00:00" 7 false ⟨none, true, false⟩
        voiceStateTalking).stopped =
      voiceStateTalking.stopped ++ voiceStateTalking.sources ∧
    (∀ i ∈ voiceStateTalking.sources,
       i ∈ (onMessageCallback "1000" "1000" "12:00:00" 7 false ⟨none, true, false⟩
        voiceStateTalking).stopped) ∧
    (onMessageCallback "1000" "1000" "12:00:00" 7 false ⟨none, true, false⟩
        voiceStateTalking).aiState = AiState.listening :=
  interrupted_flushes_queue "1000" "12:00:00" 7 false ⟨none, true, false⟩
    voiceStateTalking rfl

/-- C7: when the session-id guard passes and the call is neither muted nor
paused, a microphone block is forwarded as-is whenever the playback queue is
empty; when the queue is non-empty (the remote voice is talking) the block
is forwarded only if its RMS amplitude exceeds `0.05`, and otherwise a
zero-filled silence buffer of the same length is forwarded instead. -/
theorem mic_gate (sessionId : String) (micCoin : Bool) (nowMs : Int)
    (input : List ℚ) (s : UIState) :
    (s.sources ≠ [] →
      (processorStep sessionId sessionId false false micCoin nowMs input s).2 =
        (if rmsAbove input (1 / 20) then some input
         else some (List.replicate input.length 0))) ∧
    (s.sources = [] →
      (processorStep sessionId sessionId false false micCoin nowMs input s).2 =
        some input) := by
  constructor
  · intro hne
    have hb : s.sources.isEmpty = false := by
      simpa [List.isEmpty_iff] using hne
    simp [processorStep, hb]
    split <;> rfl
  · intro hemp
    simp [processorStep, hemp]

/-- Witness for C7: with two queued sources and a loud block (RMS `0.1 >
0.05`) the block itself is forwarded; with an empty queue the block is
always forwarded. -/
theorem mic_gate_witness :
    voiceStateTalking.sources ≠ [] ∧
    (processorStep "1000" "1000" false false false 0 [1 / 10, 1 / 10]
        voiceStateTalking).2 = some [1 / 10, 1 / 10] ∧
    voiceState0.sources = [] ∧
    (processorStep "1000" "1000" false false false 0 [1 / 10, 1 / 10]
        voiceState0).2 = some [1 / 10, 1 / 10] := by
  refine ⟨by decide, ?_, rfl, ?_⟩
  · have h := (mic_gate "1000" false 0 [1 / 10, 1 / 10] voiceStateTalking).1
      (by decide)
    rw [h]
    norm_num [rmsAbove, sumSq]
  · exact (mic_gate "1000" false 0 [1 / 10, 1 / 10] voiceState0).2 rfl

/-- The base64 alphabet inverts its own indexing and contains no padding
character. -/
theorem sextet_inverse : ∀ n : Fin 64,
    sextetVal (sextetChar n.val) = n.val ∧ sextetChar n.val ≠ '=' := by
  decide

/-- `sextetVal` inverts `sextetChar` below 64. -/
theorem sextetVal_sextetChar (n : Nat) (h : n < 64) :
    sextetVal (sextetChar n) = n :=
  (sextet_inverse ⟨n, h⟩).1

/-- Alphabet characters are never the padding character. -/
theorem sextetChar_ne_pad (n : Nat) (h : n < 64) : sextetChar n ≠ '=' :=
  (sextet_inverse ⟨n, h⟩).2

/-- Char codes below 256 survive the char round-trip. -/
theorem charCode_roundtrip : ∀ n : Fin 256, (Char.ofNat n.val).toNat = n.val := by
  decide

/-- Reading back the char codes of a byte string gives the bytes. -/
theorem map_charCodes (bytes : List Nat) (h : ∀ b ∈ bytes, b < 256) :
    (bytes.map Char.ofNat).map Char.toNat = bytes := by
  induction bytes with
  | nil => rfl
  | cons b bs ih =>
    have hb : b < 256 := h b (by simp)
    have hbs : ∀ x ∈ bs, x < 256 := fun x hx => h x (by simp [hx])
    simp only [List.map_cons, List.cons.injEq]
    exact ⟨charCode_roundtrip ⟨b, hb⟩, ih hbs⟩

/-- The 32 KB chunking of `encode` builds the same binary string as a
single `String.fromCharCode` pass over the whole array. -/
theorem toBinaryChunked_eq (bytes : List Nat) :
    toBinaryChunked bytes = bytes.map Char.ofNat := by
  induction bytes using toBinaryChunked.induct with
  | case1 => simp [toBinaryChunked]
  | case2 bytes h ih =>
    rw [toBinaryChunked]
    rw [dif_neg h, ih]
    unfold fromCharCodes
    rw [← List.map_append, List.take_append_drop]

/-- base64 decoding inverts base64 encoding on byte sequences. -/
theorem atobBytes_btoaBytes (l : List Nat) :
    (∀ b ∈ l, b < 256) → atobBytes (btoaBytes l) = l := by
  induction l using btoaBytes.induct with
  | case1 =>
    intro _
    rfl
  | case2 b0 =>
    intro h
    have hb0 : b0 < 256 := h b0 (by simp)
    simp only [btoaBytes, atobBytes, if_true]
    rw [sextetVal_sextetChar _ (by omega), sextetVal_sextetChar _ (by omega)]
    simp only [List.cons.injEq, and_true]
    omega
  | case3 b0 b1 =>
    intro h
    have hb0 : b0 < 256 := h b0 (by simp)
    have hb1 : b1 < 256 := h b1 (by simp)
    simp only [btoaBytes, atobBytes]
    rw [if_neg (sextetChar_ne_pad _ (by omega))]
    simp only [if_true]
    rw [sextetVal_sextetChar _ (by omega), sextetVal_sextetChar _ (by omega),
        sextetVal_sextetChar _ (by omega)]
    simp only [List.cons.injEq, and_true]
    exact ⟨by omega, by omega⟩
  | case4 b0 b1 b2 rest ih =>
    intro h
    have hb0 : b0 < 256 := h b0 (by simp)
    have hb1 : b1 < 256 := h b1 (by simp)
    have hb2 : b2 < 256 := h b2 (by simp)
    have hrest : ∀ b ∈ rest, b < 256 := fun b hb => h b (by simp [hb])
    simp only [btoaBytes, atobBytes]
    rw [if_neg (sextetChar_ne_pad _ (by omega)),
        if_neg (sextetChar_ne_pad _ (by omega))]
    rw [sextetVal_sextetChar _ (by omega), sextetVal_sextetChar _ (by omega),
        sextetVal_sextetChar _ (by omega), sextetVal_sextetChar _ (by omega)]
    rw [ih hrest]
    simp only [List.cons.injEq, and_true]
    exact ⟨by omega, by omega, by omega⟩

/-- C8: for every byte array (entries below 256, as for a `Uint8Array`),
decoding its base64 encoding returns the original bytes:
`decode(encode(b)) = b`, where `encode` builds the binary string in 32 KB
chunks before `btoa` and `decode` rebuilds the byte values from the string
returned by `atob`. -/
theorem decode_encode_roundtrip (bytes : List Nat) (h : ∀ b ∈ bytes, b < 256) :
    decode (encode bytes) = bytes := by
  unfold decode encode atobString
  rw [toBinaryChunked_eq, map_charCodes bytes h, atobBytes_btoaBytes bytes h,
      map_charCodes bytes h]

/-- Witness for C8 on a concrete five-byte array exercising a full 3-byte
group and a padded 2-byte tail. -/
theorem decode_encode_roundtrip_witness :
    (∀ b ∈ [0, 1, 127, 128, 255], b < 256) ∧
    decode (encode [0, 1, 127, 128, 255]) = [0, 1, 127, 128, 255] :=
  ⟨by decide, decode_encode_roundtrip [0, 1, 127, 128, 255] (by decide)⟩

end Aura
